import Mathlib

/-!
Verification of the question-set assembly engine and the results/scoring
logic of the SME cyber-assessment app.

The embedding models JSON values as `JValue` (numbers as `Rat`), Python
dicts as association lists with unique keys (`jlookup` = `dict.__getitem__`
returning `Option`), the on-disk question bank as an association list from
file path to decoded JSON root, and every fallible Python operation
(missing file, schema violation, `KeyError`, `TypeError`) as `Except String`.
Python exception paths that differ only in the exception type are collapsed
to a single error message: all theorems below are about the accept/reject
behaviour and the values produced, never about the message text of an error,
except where the spec names the message.
-/

namespace SME

/-- JSON-like values as decoded by `json.load`.  Numbers are modelled as
rationals; Python `bool` is kept separate but counts as a number where
Python's `isinstance(x, (int, float))` would accept it (bool subclasses int). -/
inductive JValue where
  | str (s : String)
  | num (q : Rat)
  | bool (b : Bool)
  | list (xs : List JValue)
  | obj (fields : List (String × JValue))
deriving Repr

/-- Dict lookup (`d[k]` / `k in d`), first match; decoded JSON dicts have
unique keys so first-match agrees with Python. -/
def jlookup : List (String × JValue) → String → Option JValue
  | [], _ => none
  | (k, v) :: rest, key => if k == key then some v else jlookup rest key

/-- `loader.py` line 5: `ALLOWED_SIZES`. -/
def ALLOWED_SIZES : List String := ["micro", "small", "medium"]

/-- `loader.py` lines 6-14: `ALLOWED_SECTORS`. -/
def ALLOWED_SECTORS : List String :=
  ["all", "hospitality_retail", "professional_services", "manufacturing_logistics",
   "creative_digital_marketing", "health_wellness_education", "technology_startup_saas"]

/-- `loader.py` lines 15-19: `ALLOWED_OVERLAYS`. -/
def ALLOWED_OVERLAYS : List String :=
  ["payment_card_industry_data_security_standard",
   "general_data_protection_regulation",
   "operational_technology_and_industrial_control"]

/-- `loader.py` line 20: `ANSWER_TYPES`. -/
def ANSWER_TYPES : List String := ["traffic_light"]

/-- `if b then ok else raise ValueError(msg)` — the shape of every check in
`validate_question`. -/
def check (b : Bool) (msg : String) : Except String Unit :=
  if b then .ok () else .error msg

/-- `loader.py` lines 22-25, `_require_keys`: each key must be present;
keys NOT in the list are not examined at all. -/
def require_keys (fields : List (String × JValue)) : List String → Except String Unit
  | [] => .ok ()
  | k :: rest =>
    if (jlookup fields k).isSome then require_keys fields rest
    else .error ("missing required key " ++ k)

/-- `isinstance(v, str)`. -/
def isStrOpt : Option JValue → Bool
  | some (.str _) => true
  | _ => false

/-- `isinstance(v, dict)`. -/
def isObjOpt : Option JValue → Bool
  | some (.obj _) => true
  | _ => false

/-- `isinstance(v, list)`. -/
def isListOpt : Option JValue → Bool
  | some (.list _) => true
  | _ => false

/-- `isinstance(v, (int, float))`; Python `bool` passes this test. -/
def isNumber : JValue → Bool
  | .num _ => true
  | .bool _ => true
  | _ => false

/-- Python iteration over a JSON value, as used by `set(v)` and `for o in v`:
a string yields its characters (as 1-char strings), a list its elements, a
dict its keys; numbers and bools are not iterable (`TypeError`). -/
def pyElems : JValue → Option (List JValue)
  | .str s => some (s.toList.map fun c => .str (String.singleton c))
  | .list xs => some xs
  | .obj fs => some (fs.map fun p => .str p.1)
  | _ => none

/-- `set(v).issubset(allowed)` for a set of strings `allowed`; a
non-iterable `v` or an unhashable element raises in Python — collapsed here
to `false` since `validate_question` rejects in either case. -/
def subset_of (v : JValue) (allowed : List String) : Bool :=
  match pyElems v with
  | none => false
  | some es => es.all fun e =>
      match e with
      | .str s => allowed.contains s
      | _ => false

/-- The loop of `_validate_weights`: each listed key must be present with a
numeric value. -/
def weights_keys_ok (w : List (String × JValue)) : List String → Except String Unit
  | [] => .ok ()
  | k :: rest =>
    match jlookup w k with
    | some v => if isNumber v then weights_keys_ok w rest
                else .error ("question: weights " ++ k ++ " must be number")
    | none => .error ("question: weights " ++ k ++ " must be number")

/-- `loader.py` lines 31-34, `_validate_weights`. -/
def validate_weights : JValue → Except String Unit
  | .obj w => weights_keys_ok w ["importance", "effort", "impact"]
  | _ => .error "weights: not a mapping"

/-- `loader.py` lines 36-43, `_validate_visibility`. -/
def validate_visibility : JValue → Except String Unit
  | .obj v => do
      require_keys v ["sizes", "sectors", "overlays"]
      check (subset_of ((jlookup v "sizes").getD (.bool false)) ALLOWED_SIZES)
        "question: visibility_rules.sizes must be subset of allowed sizes"
      check (subset_of ((jlookup v "sectors").getD (.bool false)) ALLOWED_SECTORS)
        "question: visibility_rules.sectors must be subset of allowed sectors"
      check (subset_of ((jlookup v "overlays").getD (.bool false)) ALLOWED_OVERLAYS)
        "question: visibility_rules.overlays must be subset of allowed overlays"
  | _ => .error "visibility_rules: not a mapping"

/-- The eight required keys of a question record (`loader.py` line 48). -/
def requiredQuestionKeys : List String :=
  ["id", "section", "text", "hint", "answer_type", "weights", "visibility_rules",
   "framework_references"]

/-- `loader.py` lines 45-61, `validate_question`.  A non-mapping record makes
the Python code raise (`TypeError`/`ValueError` from the membership tests);
modelled as an error.  The checks run in source order and stop at the first
violation. -/
def validate_question (q : JValue) : Except String Unit :=
  match q with
  | .obj fields => do
      require_keys fields requiredQuestionKeys
      check (isStrOpt (jlookup fields "id")) "question.id: expected type str"
      check (isStrOpt (jlookup fields "section")) "question.section: expected type str"
      check (isStrOpt (jlookup fields "text")) "question.text: expected type str"
      check (isStrOpt (jlookup fields "hint")) "question.hint: expected type str"
      check (match jlookup fields "answer_type" with
             | some (.str s) => ANSWER_TYPES.contains s
             | _ => false)
        "question.answer_type must be one of allowed answer types"
      check (isObjOpt (jlookup fields "weights")) "question.weights: expected type dict"
      check (isObjOpt (jlookup fields "visibility_rules"))
        "question.visibility_rules: expected type dict"
      check (isListOpt (jlookup fields "framework_references"))
        "question.framework_references: expected type list"
      validate_weights ((jlookup fields "weights").getD (.bool false))
      validate_visibility ((jlookup fields "visibility_rules").getD (.bool false))
  | _ => .error "question: not a mapping"

/-- The per-record validation loop of `load_questions_from_file`
(`loader.py` lines 70-71). -/
def validate_all : List JValue → Except String Unit
  | [] => .ok ()
  | q :: rest => do
      validate_question q
      validate_all rest

/-- The on-disk question bank: decoded JSON root per existing file path. -/
abbrev FS := List (String × JValue)

/-- `loader.py` lines 63-72, `load_questions_from_file`. -/
def load_questions_from_file (fs : FS) (path : String) : Except String (List JValue) :=
  match jlookup fs path with
  | none => .error ("Question file not found: " ++ path)
  | some (.list qs) => do
      validate_all qs
      pure qs
  | some _ => .error (path ++ ": root must be a list of questions")

/-- Hashable Python values usable as set elements / dict keys; Python treats
`True == 1`, so bools normalise to numbers. -/
inductive HKey where
  | str (s : String)
  | num (q : Rat)
deriving DecidableEq, Repr

/-- Hash key of a JSON value; `none` for unhashable values (`TypeError`). -/
def pyHashKey : JValue → Option HKey
  | .str s => some (.str s)
  | .num n => some (.num n)
  | .bool b => some (.num (if b then 1 else 0))
  | _ => none

/-- `q["id"]` as a set element: fails when `q` is not a mapping, has no
`id`, or the id is unhashable. -/
def qkey (q : JValue) : Option HKey :=
  match q with
  | .obj fields => (jlookup fields "id").bind pyHashKey
  | _ => none

/-- The loop body of `merge_unique_by_id` over the flattened input
(`loader.py` lines 77-82), carrying the `seen` set. -/
def merge_aux (seen : List HKey) : List JValue → Except String (List JValue)
  | [] => .ok []
  | q :: rest =>
    match qkey q with
    | none => .error "question: missing required key id"
    | some k =>
      if seen.contains k then merge_aux seen rest
      else (merge_aux (k :: seen) rest).map fun out => q :: out

/-- `loader.py` lines 74-83, `merge_unique_by_id`: walk all lists in order,
keep the first occurrence of each id. -/
def merge_unique_by_id (lists : List (List JValue)) : Except String (List JValue) :=
  merge_aux [] lists.flatten

/-- `base_dir / "questions" / name` with the app's fixed base dir. -/
def questionsPath (name : String) : String := "questions/" ++ name

def corePath : String := questionsPath "core.json"

def sizePath (size : String) : String := questionsPath ("size_" ++ size ++ ".json")

def sectorPath (sector : String) : String := questionsPath ("sector_" ++ sector ++ ".json")

def overlayPath (k : String) : String := questionsPath ("overlays_" ++ k ++ ".json")

/-- The overlay loop of `build_question_set` (`loader.py` lines 104-112):
iterate the overlay flags in order; an enabled overlay whose file exists is
loaded (schema errors are fatal), an enabled overlay whose file is missing
contributes nothing and a "Missing overlay" trace line. -/
def loadOverlays (fs : FS) : List (String × Bool) → Except String (List JValue × List String)
  | [] => .ok ([], [])
  | (k, enabled) :: rest =>
    if enabled then
      if (jlookup fs (overlayPath k)).isSome then do
        let qs ← load_questions_from_file fs (overlayPath k)
        let (qs', dbg) ← loadOverlays fs rest
        pure (qs ++ qs', ("Loaded overlay " ++ k) :: dbg)
      else do
        let (qs', dbg) ← loadOverlays fs rest
        pure (qs', ("Missing overlay " ++ k) :: dbg)
    else loadOverlays fs rest

/-- `pat` occurs as a contiguous run at the head of `s`. -/
def strStarts : List Char → List Char → Bool
  | [], _ => true
  | _ :: _, [] => false
  | c :: cs, d :: ds => c == d && strStarts cs ds

/-- `pat` occurs as a contiguous run somewhere in `s`. -/
def hasSubList (pat : List Char) : List Char → Bool
  | [] => strStarts pat []
  | d :: ds => strStarts pat (d :: ds) || hasSubList pat ds

/-- Python's `x in container` for a string `x`: substring test on a string,
element test on a list (a string equals only an equal string), key test on a
dict; `in` on a number/bool raises `TypeError`, collapsed to `false`
(unreachable for validated questions). -/
def pyContains (container : JValue) (x : String) : Bool :=
  match container with
  | .str s => hasSubList x.toList s.toList
  | .list xs => xs.any fun e =>
      match e with
      | .str t => t == x
      | _ => false
  | .obj fs => (jlookup fs x).isSome
  | _ => false

/-- `v[k]` on the visibility dict; the `.bool false` default models the
`KeyError` path, unreachable for validated questions. -/
def vfield (v : JValue) (k : String) : JValue :=
  match v with
  | .obj fs => (jlookup fs k).getD (.bool false)
  | _ => .bool false

/-- `overlay_flags.get(s, False)` for a string key. -/
def flag_lookup : List (String × Bool) → String → Bool
  | [], _ => false
  | (k, b) :: rest, s => if k == s then b else flag_lookup rest s

/-- `overlay_flags.get(o, False)`: the flag mapping has string keys, so a
non-string `o` never matches. -/
def flag_get (flags : List (String × Bool)) : JValue → Bool
  | .str s => flag_lookup flags s
  | _ => false

/-- The visibility filter predicate of `build_question_set`
(`loader.py` lines 118-123). -/
def question_visible (size sector : String) (flags : List (String × Bool)) (q : JValue) : Bool :=
  let v := vfield q "visibility_rules"
  pyContains (vfield v "sizes") size
  && (pyContains (vfield v "sectors") sector || pyContains (vfield v "sectors") "all")
  && (match pyElems (vfield v "overlays") with
      | some es => es.all (flag_get flags)
      | none => false)

/-- `loader.py` lines 100-101: the sector bank is optional — load it when
the file exists, contribute the empty sequence otherwise. -/
def load_sector (fs : FS) (sector : String) : Except String (List JValue) :=
  if (jlookup fs (sectorPath sector)).isSome then
    load_questions_from_file fs (sectorPath sector)
  else pure []

/-- `loader.py` lines 85-127, `build_question_set`: load core (mandatory),
size tier (mandatory), sector (optional, empty when the file is absent),
enabled overlays (optional per overlay); merge by first id occurrence;
filter by visibility; return the filtered list and the trace. -/
def build_question_set (fs : FS) (size sector : String)
    (overlay_flags : List (String × Bool)) : Except String (List JValue × List String) := do
  let core ← load_questions_from_file fs corePath
  let size_q ← load_questions_from_file fs (sizePath size)
  let sector_q ← load_sector fs sector
  let (overlay_q_all, overlayDbg) ← loadOverlays fs overlay_flags
  let merged ← merge_unique_by_id [core, size_q, sector_q, overlay_q_all]
  let final := merged.filter (question_visible size sector overlay_flags)
  let dbg := ("Loaded core.json: " ++ toString core.length)
    :: ("Loaded size_" ++ size ++ ".json: " ++ toString size_q.length)
    :: ("Loaded sector_" ++ sector ++ ".json: " ++ toString sector_q.length)
    :: overlayDbg ++ ["Final question count: " ++ toString final.length]
  pure (final, dbg)

/-- Modelled from the spec: "building with an empty sector contribution
(core + size + enabled overlays only, filtered)" — the comparison baseline of
the sector-fallback property.  Identical to `build_question_set` except that
the sector bank contributes the empty sequence unconditionally. -/
def build_question_set_empty_sector (fs : FS) (size sector : String)
    (overlay_flags : List (String × Bool)) : Except String (List JValue × List String) := do
  let core ← load_questions_from_file fs corePath
  let size_q ← load_questions_from_file fs (sizePath size)
  let sector_q : List JValue := []
  let (overlay_q_all, overlayDbg) ← loadOverlays fs overlay_flags
  let merged ← merge_unique_by_id [core, size_q, sector_q, overlay_q_all]
  let final := merged.filter (question_visible size sector overlay_flags)
  let dbg := ("Loaded core.json: " ++ toString core.length)
    :: ("Loaded size_" ++ size ++ ".json: " ++ toString size_q.length)
    :: ("Loaded sector_" ++ sector ++ ".json: " ++ toString sector_q.length)
    :: overlayDbg ++ ["Final question count: " ++ toString final.length]
  pure (final, dbg)

/-- The load-and-merge stage of `build_question_set` (`loader.py` lines
94-114): the four bank contributions in their fixed precedence order, merged
by first id occurrence, before the visibility filter is applied. -/
def merged_questions (fs : FS) (size sector : String)
    (overlay_flags : List (String × Bool)) : Except String (List JValue) := do
  let core ← load_questions_from_file fs corePath
  let size_q ← load_questions_from_file fs (sizePath size)
  let sector_q ← load_sector fs sector
  let (overlay_q_all, _) ← loadOverlays fs overlay_flags
  merge_unique_by_id [core, size_q, sector_q, overlay_q_all]

/-- Modelled from the spec: disabling one overlay flag, the baseline against
which "a missing overlay file contributes nothing" is stated. -/
def disable_overlay (k : String) (flags : List (String × Bool)) : List (String × Bool) :=
  flags.map fun p => if p.1 == k then (p.1, false) else p

/-- All elements are strings. -/
def strsOf : List JValue → Option (List String)
  | [] => some []
  | .str s :: rest => (strsOf rest).map fun l => s :: l
  | _ => none

/-- The field list of a mapping. -/
def asObjFields : JValue → Option (List (String × JValue))
  | .obj fs => some fs
  | _ => none

/-- The elements of a present list value. -/
def asListItems : Option JValue → Option (List JValue)
  | some (.list xs) => some xs
  | _ => none

/-- The canonical shape of `visibility_rules`: a mapping whose `sizes`,
`sectors` and `overlays` are lists of strings; returns those three lists.
Statement vocabulary for the visibility theorems. -/
def visLists (q : JValue) : Option (List String × List String × List String) := do
  let fields ← asObjFields q
  let vv ← jlookup fields "visibility_rules"
  let v ← asObjFields vv
  let szl ← asListItems (jlookup v "sizes")
  let sel ← asListItems (jlookup v "sectors")
  let ovl ← asListItems (jlookup v "overlays")
  let a ← strsOf szl
  let b ← strsOf sel
  let c ← strsOf ovl
  pure (a, b, c)

/-- The schema actually enforced by `validate_question`: a mapping with at
least the eight required keys (additional keys are permitted), string
`id`/`section`/`text`/`hint`, an allowed `answer_type`, a weights mapping
with numeric `importance`/`effort`/`impact`, a visibility mapping whose
`sizes`/`sectors`/`overlays` are subsets of their closed enumerations, and a
list of `framework_references`. -/
def question_schema_ok (q : JValue) : Prop :=
  ∃ fields, q = .obj fields ∧
    (∀ k ∈ requiredQuestionKeys, (jlookup fields k).isSome = true) ∧
    isStrOpt (jlookup fields "id") = true ∧
    isStrOpt (jlookup fields "section") = true ∧
    isStrOpt (jlookup fields "text") = true ∧
    isStrOpt (jlookup fields "hint") = true ∧
    (∃ s, jlookup fields "answer_type" = some (.str s) ∧ s ∈ ANSWER_TYPES) ∧
    (∃ w, jlookup fields "weights" = some (.obj w) ∧
      ∀ k ∈ ["importance", "effort", "impact"],
        ∃ v, jlookup w k = some v ∧ isNumber v = true) ∧
    (∃ v, jlookup fields "visibility_rules" = some (.obj v) ∧
      (∀ k ∈ ["sizes", "sectors", "overlays"], (jlookup v k).isSome = true) ∧
      subset_of ((jlookup v "sizes").getD (.bool false)) ALLOWED_SIZES = true ∧
      subset_of ((jlookup v "sectors").getD (.bool false)) ALLOWED_SECTORS = true ∧
      subset_of ((jlookup v "overlays").getD (.bool false)) ALLOWED_OVERLAYS = true) ∧
    isListOpt (jlookup fields "framework_references") = true

/-! ### app.py: scoring and results -/

/-- `app.py` lines 161-162, `score_choice`: dict lookup raising `KeyError`
on any other string. -/
def score_choice (choice : String) : Option Nat :=
  if choice == "Yes" then some 2
  else if choice == "Partially or unsure" then some 1
  else if choice == "No" then some 0
  else none

/-- `app.py` lines 164-169, `status_from_avg`. -/
def status_from_avg (avg : Rat) : String :=
  if avg ≥ 1.6 then "🟩 Good"
  else if avg ≥ 0.8 then "🟨 Needs improvement"
  else "🟥 At risk"

/-- The per-session answers mapping (question id → chosen answer). -/
abbrev Answers := List (String × String)

/-- `answers.get(i, "Partially or unsure")`. -/
def answers_get (answers : Answers) (i : String) : String :=
  match answers with
  | [] => "Partially or unsure"
  | (k, a) :: rest => if k == i then a else answers_get rest i

/-- `st.session_state.answers.get(q["id"], "Partially or unsure")` as used on
the results page: `none` models the `KeyError`/`TypeError` paths (no `id`,
unhashable `id`); a hashable non-string id never matches the string-keyed
answers dict, so it takes the default. -/
def answer_for (answers : Answers) (q : JValue) : Option String :=
  match q with
  | .obj fields =>
    match jlookup fields "id" with
    | some v =>
      match pyHashKey v with
      | some (.str i) => some (answers_get answers i)
      | some _ => some "Partially or unsure"
      | none => none
    | none => none
  | _ => none

/-- `q["section"]`; the results page only reads string sections from
validated questions. -/
def qsection : JValue → Option String
  | .obj fields =>
    match jlookup fields "section" with
    | some (.str s) => some s
    | _ => none
  | _ => none

/-- `section_scores.setdefault(s, []).append(n)`: append to the entry of
`s`, creating it at the end (dict insertion order) when absent. -/
def addScore (s : String) (n : Nat) : List (String × List Nat) → List (String × List Nat)
  | [] => [(s, [n])]
  | (t, vals) :: rest =>
    if t == s then (t, vals ++ [n]) :: rest else (t, vals) :: addScore s n rest

/-- The section-scores loop of the results page (`app.py` lines 528-531). -/
def section_scores (answers : Answers) :
    List JValue → List (String × List Nat) → Option (List (String × List Nat))
  | [], acc => some acc
  | q :: rest, acc => do
      let ans ← answer_for answers q
      let s ← qsection q
      let sc ← score_choice ans
      section_scores answers rest (addScore s sc acc)

/-- `{s: sum(vals)/len(vals) for s, vals in section_scores.items() if vals}`
(`app.py` line 532). -/
def section_avg (groups : List (String × List Nat)) : List (String × Rat) :=
  (groups.filter fun p => !p.2.isEmpty).map fun p =>
    (p.1, ((p.2.map fun n => (n : Rat)).sum) / (p.2.length : Rat))

/-- `sum(section_avg.values()) / len(section_avg) if section_avg else 0.0`
(`app.py` line 533). -/
def overall_of (savg : List (String × Rat)) : Rat :=
  if savg.isEmpty then 0 else ((savg.map Prod.snd).sum) / (savg.length : Rat)

/-- The overall score of the results page for a question list and the
session answers. -/
def results_overall (answers : Answers) (qs : List JValue) : Option Rat := do
  let groups ← section_scores answers qs []
  pure (overall_of (section_avg groups))

/-- `q.get("weights", {"importance": 2, "effort": 2, "impact": 2}).get(k, 2)`
as a number: `none` models the raising paths (non-dict weights, non-numeric
value in a comparison). -/
def wnum (q : JValue) (k : String) : Option Rat :=
  match q with
  | .obj fields =>
    match jlookup fields "weights" with
    | none => some 2
    | some (.obj w) =>
      match jlookup w k with
      | none => some 2
      | some (.num n) => some n
      | some (.bool b) => some (if b then 1 else 0)
      | some _ => none
    | some _ => none
  | _ => none

/-- The quick-wins loop of the results page (`app.py` lines 548-553): keep
`(q, ans)` when the current answer is not "Yes", `weights.effort ≤ 2` and
`weights.impact ≥ 2`; `impact` is only examined when the `effort` test
passes (Python `and` short-circuits). -/
def quick_wins (answers : Answers) : List JValue → Option (List (JValue × String))
  | [] => some []
  | q :: rest => do
      let ans ← answer_for answers q
      if ans ≠ "Yes" then
        let e ← wnum q "effort"
        if e ≤ 2 then do
          let im ← wnum q "impact"
          if 2 ≤ im then do
            let tail ← quick_wins answers rest
            pure ((q, ans) :: tail)
          else quick_wins answers rest
        else quick_wins answers rest
      else quick_wins answers rest

/-! ### Concrete sample data for the witness theorems -/

/-- A well-formed weights record. -/
def mkWeights (imp eff impa : Rat) : JValue :=
  .obj [("importance", .num imp), ("effort", .num eff), ("impact", .num impa)]

/-- A well-formed visibility record with list-of-string fields. -/
def mkVis (sizes sectors overlays : List String) : JValue :=
  .obj [("sizes", .list (sizes.map .str)), ("sectors", .list (sectors.map .str)),
        ("overlays", .list (overlays.map .str))]

/-- A well-formed question record. -/
def mkQ (i sec txt : String) (eff impa : Rat)
    (sizes sectors overlays : List String) : JValue :=
  .obj [("id", .str i), ("section", .str sec), ("text", .str txt), ("hint", .str "hint"),
        ("answer_type", .str "traffic_light"), ("weights", mkWeights 2 eff impa),
        ("visibility_rules", mkVis sizes sectors overlays), ("framework_references", .list [])]

/-- Core bank question: low effort, high impact, visible everywhere. -/
def qA : JValue := mkQ "qa" "Access Control" "core version" 1 3
  ["micro", "small", "medium"] ["all"] []

/-- Size-bank duplicate of `qa` with different text. -/
def qA2 : JValue := mkQ "qa" "Access Control" "size version" 1 3
  ["micro", "small", "medium"] ["all"] []

/-- Size-bank question restricted to one sector, high effort. -/
def qB : JValue := mkQ "qb" "Backups" "backups" 3 3
  ["small"] ["hospitality_retail"] []

/-- Overlay-bank question gated on the GDPR overlay. -/
def qC : JValue := mkQ "qc" "Data Protection" "gdpr" 2 2
  ["small"] ["all"] ["general_data_protection_regulation"]

/-- Sample bank: core, `size_small`, one overlay file; no sector files. -/
def fsSample : FS :=
  [(corePath, .list [qA]),
   (sizePath "small", .list [qA2, qB]),
   (overlayPath "general_data_protection_regulation", .list [qC])]

/-- Sample overlay flags: GDPR on, PCI off. -/
def flagsSample : List (String × Bool) :=
  [("general_data_protection_regulation", true),
   ("payment_card_industry_data_security_standard", false)]

/-- Sample overlay flags with PCI enabled (its bank file is absent). -/
def flagsPci : List (String × Bool) :=
  [("payment_card_industry_data_security_standard", true)]

/-- Total number of recorded scores across all sections. -/
def sumLens (groups : List (String × List Nat)) : Nat :=
  (groups.map fun p => p.2.length).sum

/-- Four questions: one in section "A", three in section "B". -/
def qs5 : List JValue :=
  [mkQ "s1" "A" "t1" 2 2 ["micro", "small", "medium"] ["all"] [],
   mkQ "s2" "B" "t2" 2 2 ["micro", "small", "medium"] ["all"] [],
   mkQ "s3" "B" "t3" 2 2 ["micro", "small", "medium"] ["all"] [],
   mkQ "s4" "B" "t4" 2 2 ["micro", "small", "medium"] ["all"] []]

/-- Answers for `qs5`: section "A" all Yes, section "B" all No. -/
def answers5 : Answers :=
  [("s1", "Yes"), ("s2", "No"), ("s3", "No"), ("s4", "No")]

/-- Answers for the quick-wins example: both sample questions answered No. -/
def answers8 : Answers := [("qa", "No"), ("qb", "No")]

/-- The explicit field list of `qA`. -/
def qAFields : List (String × JValue) :=
  [("id", .str "qa"), ("section", .str "Access Control"), ("text", .str "core version"),
   ("hint", .str "hint"), ("answer_type", .str "traffic_light"),
   ("weights", mkWeights 2 1 3),
   ("visibility_rules", mkVis ["micro", "small", "medium"] ["all"] []),
   ("framework_references", .list [])]

/-- A record with all eight required keys plus a ninth key `extra`. -/
def qExtraFields : List (String × JValue) :=
  [("id", .str "qx"), ("section", .str "S"), ("text", .str "t"), ("hint", .str "h"),
   ("answer_type", .str "traffic_light"), ("weights", mkWeights 2 2 2),
   ("visibility_rules", mkVis ["micro"] ["all"] []), ("framework_references", .list []),
   ("extra", .str "unexpected")]

/-- The record built from `qExtraFields`. -/
def qExtra : JValue := .obj qExtraFields

/-! ## Lemmas -/

lemma bind_ok_unit {x : Except String Unit} {f : Unit → Except String Unit} :
    (x >>= f) = .ok () ↔ x = .ok () ∧ f () = .ok () := by
  cases x with
  | error e => simp [Bind.bind, Except.bind]
  | ok u => cases u; simp [Bind.bind, Except.bind]

lemma check_ok {b : Bool} {msg : String} : check b msg = .ok () ↔ b = true := by
  cases b <;> simp [check]

lemma require_keys_ok {fields : List (String × JValue)} {keys : List String} :
    require_keys fields keys = .ok () ↔ ∀ k ∈ keys, (jlookup fields k).isSome = true := by
  induction keys with
  | nil => simp [require_keys]
  | cons k rest ih =>
    by_cases h : (jlookup fields k).isSome = true
    · simp [require_keys, h, ih]
    · simp [require_keys, h]

lemma weights_keys_ok_iff {w : List (String × JValue)} {keys : List String} :
    weights_keys_ok w keys = .ok () ↔
      ∀ k ∈ keys, ∃ v, jlookup w k = some v ∧ isNumber v = true := by
  induction keys with
  | nil => simp [weights_keys_ok]
  | cons k rest ih =>
    cases hv : jlookup w k with
    | none => simp [weights_keys_ok, hv]
    | some v =>
      by_cases hn : isNumber v = true
      · simp [weights_keys_ok, hv, hn, ih]
      · simp [weights_keys_ok, hv, hn]

lemma validate_weights_ok {x : JValue} :
    validate_weights x = .ok () ↔
      ∃ w, x = .obj w ∧ ∀ k ∈ ["importance", "effort", "impact"],
        ∃ v, jlookup w k = some v ∧ isNumber v = true := by
  cases x <;> simp [validate_weights, weights_keys_ok_iff]

lemma validate_visibility_ok {x : JValue} :
    validate_visibility x = .ok () ↔
      ∃ v, x = .obj v ∧
        (∀ k ∈ ["sizes", "sectors", "overlays"], (jlookup v k).isSome = true) ∧
        subset_of ((jlookup v "sizes").getD (.bool false)) ALLOWED_SIZES = true ∧
        subset_of ((jlookup v "sectors").getD (.bool false)) ALLOWED_SECTORS = true ∧
        subset_of ((jlookup v "overlays").getD (.bool false)) ALLOWED_OVERLAYS = true := by
  cases x with
  | obj v => simp [validate_visibility, bind_ok_unit, check_ok, require_keys_ok]
  | str s => simp [validate_visibility]
  | num n => simp [validate_visibility]
  | bool b => simp [validate_visibility]
  | list l => simp [validate_visibility]

/-! ## Claim theorems -/

/-- C4 (counterexample): `validate_question` accepts a record that carries a
key outside the required set — the claim's "a record with any key outside
that set is rejected" is false on the code, whose `_require_keys` only
checks presence of the required keys. -/
theorem validate_question_accepts_extra_key :
    validate_question qExtra = .ok () ∧
    "extra" ∈ qExtraFields.map Prod.fst ∧ "extra" ∉ requiredQuestionKeys := by
  refine ⟨rfl, by simp [qExtraFields], by simp [requiredQuestionKeys]⟩

/-- C4 (amended): `validate_question` accepts a raw record exactly when it
is a mapping containing AT LEAST the eight required keys (additional keys
are permitted and ignored), with string `id`/`section`/`text`/`hint`, an
`answer_type` from the closed set, a weights mapping with numeric
`importance`/`effort`/`impact`, a visibility mapping whose
`sizes`/`sectors`/`overlays` are subsets of their closed enumerations, and a
list `framework_references`; any violation yields an error, never a silent
coercion. -/
theorem validate_question_ok_iff_schema (q : JValue) :
    validate_question q = .ok () ↔ question_schema_ok q := by
  cases q with
  | obj fields =>
    simp only [validate_question, bind_ok_unit, check_ok, require_keys_ok,
      validate_weights_ok, validate_visibility_ok, question_schema_ok]
    constructor
    · rintro ⟨hkeys, hid, hsec, htxt, hhint, hans, hwd, hvd, hfr, ⟨w, hw, hwall⟩, ⟨v, hv, hvall⟩⟩
      refine ⟨fields, rfl, hkeys, hid, hsec, htxt, hhint, ?_, ⟨w, ?_, hwall⟩, ⟨v, ?_, hvall⟩, hfr⟩
      · cases hat : jlookup fields "answer_type" with
        | none => rw [hat] at hans; simp at hans
        | some av =>
          cases av <;> rw [hat] at hans <;> simp at hans
          case str s => exact ⟨s, rfl, by simpa using hans⟩
      · cases hwx : jlookup fields "weights" with
        | none => rw [hwx] at hwd; simp [isObjOpt] at hwd
        | some wv =>
          rw [hwx] at hw
          simp at hw
          rw [hw]
      · cases hvx : jlookup fields "visibility_rules" with
        | none => rw [hvx] at hvd; simp [isObjOpt] at hvd
        | some vv =>
          rw [hvx] at hv
          simp at hv
          rw [hv]
    · rintro ⟨fields', heq, hkeys, hid, hsec, htxt, hhint, ⟨s, hat, hs⟩, ⟨w, hw, hwall⟩,
        ⟨v, hv, hvall⟩, hfr⟩
      cases heq
      refine ⟨hkeys, hid, hsec, htxt, hhint, ?_, ?_, ?_, hfr, ⟨w, ?_, hwall⟩, ⟨v, ?_, hvall⟩⟩
      · rw [hat]; simpa using hs
      · rw [hw]; simp [isObjOpt]
      · rw [hv]; simp [isObjOpt]
      · rw [hw]; simp
      · rw [hv]; simp
  | str s => simp [validate_question, question_schema_ok]
  | num n => simp [validate_question, question_schema_ok]
  | bool b => simp [validate_question, question_schema_ok]
  | list l => simp [validate_question, question_schema_ok]

lemma merge_aux_sublist {seen : List HKey} {l out : List JValue}
    (h : merge_aux seen l = .ok out) : out.Sublist l := by
  induction l generalizing seen out with
  | nil => simp [merge_aux] at h; simp [h]
  | cons a rest ih =>
    cases hk : qkey a with
    | none => simp [merge_aux, hk] at h
    | some k =>
      simp only [merge_aux, hk] at h
      by_cases hs : k ∈ seen
      · rw [if_pos (by simpa using hs)] at h
        exact (ih h).trans (List.sublist_cons_self a rest)
      · rw [if_neg (by simpa using hs)] at h
        cases hrec : merge_aux (k :: seen) rest with
        | error e => rw [hrec] at h; simp [Except.map] at h
        | ok out' =>
          rw [hrec] at h
          simp [Except.map] at h
          rw [← h]
          exact (ih hrec).cons₂ a

lemma merge_aux_keys {seen : List HKey} {l out : List JValue}
    (h : merge_aux seen l = .ok out) :
    (∀ q ∈ out, ∃ k, qkey q = some k ∧ k ∉ seen) ∧
    out.Pairwise (fun a b => qkey a ≠ qkey b) := by
  induction l generalizing seen out with
  | nil => simp [merge_aux] at h; simp [h]
  | cons a rest ih =>
    cases hk : qkey a with
    | none => simp [merge_aux, hk] at h
    | some k =>
      simp only [merge_aux, hk] at h
      by_cases hs : k ∈ seen
      · rw [if_pos (by simpa using hs)] at h
        exact ih h
      · rw [if_neg (by simpa using hs)] at h
        cases hrec : merge_aux (k :: seen) rest with
        | error e => rw [hrec] at h; simp [Except.map] at h
        | ok out' =>
          rw [hrec] at h
          simp [Except.map] at h
          obtain ⟨hmem, hpw⟩ := ih hrec
          subst h
          constructor
          · intro q hq
            rcases List.mem_cons.mp hq with rfl | hq'
            · exact ⟨k, hk, hs⟩
            · obtain ⟨k', hk', hs'⟩ := hmem q hq'
              exact ⟨k', hk', fun hin => hs' (List.mem_cons_of_mem _ hin)⟩
          · refine List.Pairwise.cons ?_ hpw
            intro b hb hcontra
            obtain ⟨k', hk', hs'⟩ := hmem b hb
            rw [hk, hk'] at hcontra
            injection hcontra with h2
            subst h2
            exact hs' (List.mem_cons_self k seen)

lemma merge_aux_mem {seen : List HKey} {l out : List JValue} {q : JValue}
    (h : merge_aux seen l = .ok out) :
    q ∈ out ↔ ∃ k, qkey q = some k ∧ k ∉ seen ∧
      ∃ l₁ l₂, l = l₁ ++ q :: l₂ ∧ ∀ p ∈ l₁, qkey p ≠ some k := by
  induction l generalizing seen out with
  | nil =>
    simp [merge_aux] at h
    subst h
    simp
  | cons a rest ih =>
    cases hk : qkey a with
    | none => simp [merge_aux, hk] at h
    | some k =>
      simp only [merge_aux, hk] at h
      by_cases hs : k ∈ seen
      · rw [if_pos (by simpa using hs)] at h
        rw [ih h]
        constructor
        · rintro ⟨k', hk', hs', l₁, l₂, rfl, hfirst⟩
          refine ⟨k', hk', hs', a :: l₁, l₂, rfl, ?_⟩
          intro p hp
          rcases List.mem_cons.mp hp with rfl | hp'
          · rw [hk]
            intro hcc
            injection hcc with hcc
            subst hcc
            exact hs' hs
          · exact hfirst p hp'
        · rintro ⟨k', hk', hs', l₁, l₂, heq, hfirst⟩
          cases l₁ with
          | nil =>
            simp at heq
            obtain ⟨rfl, rfl⟩ := heq
            rw [hk] at hk'
            injection hk' with hk'
            subst hk'
            exact absurd hs hs'
          | cons b l₁' =>
            simp at heq
            obtain ⟨rfl, heq'⟩ := heq
            exact ⟨k', hk', hs', l₁', l₂, heq', fun p hp => hfirst p (List.mem_cons_of_mem _ hp)⟩
      · rw [if_neg (by simpa using hs)] at h
        cases hrec : merge_aux (k :: seen) rest with
        | error e => rw [hrec] at h; simp [Except.map] at h
        | ok out' =>
          rw [hrec] at h
          simp [Except.map] at h
          subst h
          constructor
          · intro hq
            rcases List.mem_cons.mp hq with rfl | hq'
            · exact ⟨k, hk, hs, [], rest, rfl, by simp⟩
            · obtain ⟨k', hk', hs', l₁, l₂, rfl, hfirst⟩ := (ih hrec).mp hq'
              have hks : k' ≠ k ∧ k' ∉ seen := by
                constructor
                · intro hcc; exact hs' (hcc ▸ List.mem_cons_self k seen)
                · intro hcc; exact hs' (List.mem_cons_of_mem _ hcc)
              refine ⟨k', hk', hks.2, a :: l₁, l₂, rfl, ?_⟩
              intro p hp
              rcases List.mem_cons.mp hp with rfl | hp'
              · rw [hk]
                intro hcc
                injection hcc with hcc
                exact hks.1 hcc.symm
              · exact hfirst p hp'
          · rintro ⟨k', hk', hs', l₁, l₂, heq, hfirst⟩
            cases l₁ with
            | nil =>
              simp at heq
              obtain ⟨rfl, rfl⟩ := heq
              exact List.mem_cons_self _ _
            | cons b l₁' =>
              simp at heq
              obtain ⟨rfl, heq'⟩ := heq
              have hk'' : k' ≠ k := by
                intro hcc
                have ha := hfirst a (List.mem_cons_self a l₁')
                rw [hk] at ha
                exact ha (by rw [hcc])
              refine List.mem_cons_of_mem _ ((ih hrec).mpr ?_)
              refine ⟨k', hk', ?_, l₁', l₂, heq', fun p hp => hfirst p (List.mem_cons_of_mem _ hp)⟩
              intro hcc
              rcases List.mem_cons.mp hcc with hcc' | hcc'
              · exact hk'' hcc'
              · exact hs' hcc'



lemma merge_aux_isOk {seen : List HKey} {l : List JValue} :
    (∃ out, merge_aux seen l = .ok out) ↔ ∀ q ∈ l, (qkey q).isSome = true := by
  induction l generalizing seen with
  | nil => simp [merge_aux]
  | cons a rest ih =>
    cases hk : qkey a with
    | none => simp [merge_aux, hk]
    | some k =>
      simp only [merge_aux, hk]
      by_cases hs : k ∈ seen
      · rw [if_pos (by simpa using hs)]
        simp [ih, hk]
      · rw [if_neg (by simpa using hs)]
        cases hrec : merge_aux (k :: seen) rest with
        | error e =>
          constructor
          · rintro ⟨out, hout⟩
            simp [Except.map] at hout
          · intro hall
            have hall' : ∀ q ∈ rest, (qkey q).isSome = true :=
              fun q hq => hall q (List.mem_cons_of_mem _ hq)
            obtain ⟨out, hout⟩ := (@ih (k :: seen)).mpr hall'
            rw [hout] at hrec
            cases hrec
        | ok out' =>
          constructor
          · intro _ q hq
            rcases List.mem_cons.mp hq with rfl | hq'
            · simp [hk]
            · exact (@ih (k :: seen)).mp ⟨out', hrec⟩ q hq'
          · intro _
            exact ⟨a :: out', by simp [Except.map]⟩

lemma merge_aux_append_key :
    ∀ (l₁ : List JValue) {seen : List HKey} {l₂ out : List JValue} {k : HKey} {qc : JValue},
      merge_aux seen (l₁ ++ l₂) = .ok out → qc ∈ l₁ → qkey qc = some k → k ∉ seen →
      ∀ q ∈ out, qkey q = some k → q ∈ l₁ := by
  intro l₁
  induction l₁ with
  | nil => intro seen l₂ out k qc h hqc; cases hqc
  | cons a rest ih =>
    intro seen l₂ out k qc h hqc hk hs q hq hqk
    cases hka : qkey a with
    | none => simp [merge_aux, hka] at h
    | some ka =>
      simp only [List.cons_append, merge_aux, hka, List.append_eq] at h
      by_cases hsa : ka ∈ seen
      · rw [if_pos (by simpa using hsa)] at h
        rcases List.mem_cons.mp hqc with rfl | hqc'
        · rw [hka] at hk
          injection hk with hk
          subst hk
          exact absurd hsa hs
        · exact List.mem_cons_of_mem a (ih h hqc' hk hs q hq hqk)
      · rw [if_neg (by simpa using hsa)] at h
        cases hrec : merge_aux (ka :: seen) (rest ++ l₂) with
        | error e => rw [hrec] at h; simp [Except.map] at h
        | ok out' =>
          rw [hrec] at h
          simp [Except.map] at h
          subst h
          rcases List.mem_cons.mp hq with rfl | hq'
          · exact List.mem_cons_self _ _
          · by_cases hkka : k = ka
            · exfalso
              obtain ⟨k', hk', hs'⟩ := (merge_aux_keys hrec).1 q hq'
              rw [hqk] at hk'
              injection hk' with hk'
              subst hk'
              subst hkka
              exact hs' (List.mem_cons_self _ _)
            · rcases List.mem_cons.mp hqc with rfl | hqc'
              · rw [hka] at hk
                injection hk with hk
                exact absurd hk.symm hkka
              · refine List.mem_cons_of_mem a (ih hrec hqc' hk ?_ q hq' hqk)
                intro hcc
                rcases List.mem_cons.mp hcc with hcc' | hcc'
                · exact hkka hcc'
                · exact hs hcc'

lemma bind_ok {α β : Type} {x : Except String α} {f : α → Except String β} {b : β} :
    (x >>= f) = .ok b ↔ ∃ a, x = .ok a ∧ f a = .ok b := by
  cases x <;> simp [Bind.bind, Except.bind]

lemma build_ok_elim {fs : FS} {size sector : String} {flags : List (String × Bool)}
    {final : List JValue} {dbg : List String}
    (h : build_question_set fs size sector flags = .ok (final, dbg)) :
    ∃ core size_q sector_q ovq ovdbg merged,
      load_questions_from_file fs corePath = .ok core ∧
      load_questions_from_file fs (sizePath size) = .ok size_q ∧
      load_sector fs sector = .ok sector_q ∧
      loadOverlays fs flags = .ok (ovq, ovdbg) ∧
      merge_unique_by_id [core, size_q, sector_q, ovq] = .ok merged ∧
      final = merged.filter (question_visible size sector flags) ∧
      dbg = ("Loaded core.json: " ++ toString core.length)
        :: ("Loaded size_" ++ size ++ ".json: " ++ toString size_q.length)
        :: ("Loaded sector_" ++ sector ++ ".json: " ++ toString sector_q.length)
        :: ovdbg ++ ["Final question count: " ++ toString final.length] ∧
      merged_questions fs size sector flags = .ok merged := by
  unfold build_question_set at h
  simp only [bind_ok] at h
  obtain ⟨core, h1, size_q, h2, sector_q, h3, ⟨ovq, ovdbg⟩, h4, merged, h5, h6⟩ := h
  simp only [pure, Except.pure] at h6
  injection h6 with h6
  injection h6 with hfin hdbg
  refine ⟨core, size_q, sector_q, ovq, ovdbg, merged, h1, h2, h3, h4, h5, hfin.symm, ?_, ?_⟩
  · rw [hfin] at hdbg
    exact hdbg.symm
  · unfold merged_questions
    simp only [bind_ok]
    exact ⟨core, h1, size_q, h2, sector_q, h3, ⟨ovq, ovdbg⟩, h4, h5⟩

lemma load_not_found {fs : FS} {path : String} (h : jlookup fs path = none) :
    load_questions_from_file fs path = .error ("Question file not found: " ++ path) := by
  unfold load_questions_from_file
  rw [h]

/-- C3: a missing `core.json` or a missing size bank for the active size is
fatal: `build_question_set` surfaces the distinguishable file-not-found
error naming the file, and never returns a question list (empty or
partial). -/
theorem build_missing_mandatory_fatal (fs : FS) (size sector : String)
    (flags : List (String × Bool)) :
    (jlookup fs corePath = none →
       build_question_set fs size sector flags =
         .error ("Question file not found: " ++ corePath)) ∧
    (∀ core, load_questions_from_file fs corePath = .ok core →
       jlookup fs (sizePath size) = none →
       build_question_set fs size sector flags =
         .error ("Question file not found: " ++ sizePath size)) ∧
    ((jlookup fs corePath = none ∨ jlookup fs (sizePath size) = none) →
       ∀ final dbg, build_question_set fs size sector flags ≠ .ok (final, dbg)) := by
  refine ⟨?_, ?_, ?_⟩
  · intro h
    unfold build_question_set
    rw [load_not_found h]
    rfl
  · intro core hcore h
    unfold build_question_set
    rw [hcore]
    simp only [Bind.bind, Except.bind]
    rw [load_not_found h]
  · rintro (h | h) final dbg hb
    · obtain ⟨_, _, _, _, _, _, h1, _⟩ := build_ok_elim hb
      rw [load_not_found h] at h1
      cases h1
    · obtain ⟨_, _, _, _, _, _, _, h2, _⟩ := build_ok_elim hb
      rw [load_not_found h] at h2
      cases h2

/-- C3 witness: requesting size `medium` against the sample bank (which has
no `size_medium.json`) raises the distinguishable fatal error. -/
theorem build_missing_mandatory_fatal_witness :
    build_question_set fsSample "medium" "other_generic" flagsSample =
      .error ("Question file not found: " ++ sizePath "medium") :=
  (build_missing_mandatory_fatal fsSample "medium" "other_generic" flagsSample).2.1
    [qA] rfl rfl

/-- C9: the builder is a pure function of the bank contents and the
(size, sector, overlay-flags) profile — two calls on identical inputs give
identical results, hence the same question sequence and the same count. -/
theorem build_question_set_deterministic (fs : FS) (size sector : String)
    (flags : List (String × Bool)) (r₁ r₂ : Except String (List JValue × List String))
    (h₁ : build_question_set fs size sector flags = r₁)
    (h₂ : build_question_set fs size sector flags = r₂) :
    r₁ = r₂ ∧ (∀ l₁ d₁ l₂ d₂, r₁ = .ok (l₁, d₁) → r₂ = .ok (l₂, d₂) →
      l₁ = l₂ ∧ l₁.length = l₂.length) := by
  constructor
  · rw [← h₁, ← h₂]
  · intro l₁ d₁ l₂ d₂ e₁ e₂
    rw [← h₁] at e₁
    rw [← h₂] at e₂
    rw [e₁] at e₂
    injection e₂ with e₂
    injection e₂ with el ed
    exact ⟨el, by rw [el]⟩

/-- C9 witness: two calls on the sample inputs agree. -/
theorem build_question_set_deterministic_witness :
    build_question_set fsSample "small" "other_generic" flagsSample =
      build_question_set fsSample "small" "other_generic" flagsSample ∧ ([qA, qC] : List JValue).length = ([qA, qC] : List JValue).length :=
  ⟨(build_question_set_deterministic fsSample "small" "other_generic" flagsSample
      (build_question_set fsSample "small" "other_generic" flagsSample)
      (build_question_set fsSample "small" "other_generic" flagsSample) rfl rfl).1,
   ((build_question_set_deterministic fsSample "small" "other_generic" flagsSample
      (.ok ([qA, qC], ["Loaded core.json: 1", "Loaded size_small.json: 2",
        "Loaded sector_other_generic.json: 0",
        "Loaded overlay general_data_protection_regulation", "Final question count: 2"]))
      (.ok ([qA, qC], ["Loaded core.json: 1", "Loaded size_small.json: 2",
        "Loaded sector_other_generic.json: 0",
        "Loaded overlay general_data_protection_regulation", "Final question count: 2"]))
      rfl rfl).2 [qA, qC] _ [qA, qC] _ rfl rfl).2⟩

lemma map_fst_decorate {x : Except String (List JValue × List String)}
    {f : List String → List String} :
    ((x >>= fun pr => pure (pr.1, f pr.2)) : Except String (List JValue × List String)).map
        Prod.fst = x.map Prod.fst := by
  cases x <;> simp [Bind.bind, Except.bind, Except.map, pure, Except.pure]

lemma map_fst_loaded {x y : Except String (List JValue × List String)}
    {qs : List JValue} {g : List String → List String}
    (hxy : x.map Prod.fst = y.map Prod.fst) :
    ((x >>= fun pr => pure (qs ++ pr.1, g pr.2)) : Except String (List JValue × List String)).map
        Prod.fst =
    ((y >>= fun pr => pure (qs ++ pr.1, g pr.2)) : Except String (List JValue × List String)).map
        Prod.fst := by
  cases x <;> cases y <;>
    simp [Bind.bind, Except.bind, Except.map, pure, Except.pure] at hxy ⊢ <;>
    simp [hxy]

lemma loadOverlays_cons_skip (fs : FS) (k : String) (rest : List (String × Bool)) :
    loadOverlays fs ((k, false) :: rest) = loadOverlays fs rest := by
  simp [loadOverlays]

lemma loadOverlays_cons_miss {fs : FS} {k : String}
    (h : (jlookup fs (overlayPath k)).isSome = false) (rest : List (String × Bool)) :
    loadOverlays fs ((k, true) :: rest) =
      ((loadOverlays fs rest) >>= fun pr =>
        pure (pr.1, ("Missing overlay " ++ k) :: pr.2)) := by
  simp [loadOverlays, h]

lemma loadOverlays_cons_present {fs : FS} {k : String}
    (h : (jlookup fs (overlayPath k)).isSome = true) (rest : List (String × Bool)) :
    loadOverlays fs ((k, true) :: rest) =
      (load_questions_from_file fs (overlayPath k) >>= fun qs =>
       (loadOverlays fs rest) >>= fun pr =>
       pure (qs ++ pr.1, ("Loaded overlay " ++ k) :: pr.2)) := by
  simp [loadOverlays, h]

lemma loadOverlays_disable {fs : FS} {k : String} (h : jlookup fs (overlayPath k) = none) :
    ∀ flags, (loadOverlays fs flags).map Prod.fst =
      (loadOverlays fs (disable_overlay k flags)).map Prod.fst := by
  intro flags
  induction flags with
  | nil => rfl
  | cons p rest ih =>
    obtain ⟨k', en⟩ := p
    cases en with
    | false =>
      have hd : disable_overlay k ((k', false) :: rest) =
          (k', false) :: disable_overlay k rest := by
        simp [disable_overlay]
      rw [hd, loadOverlays_cons_skip, loadOverlays_cons_skip]
      exact ih
    | true =>
      by_cases hk : k' = k
      · subst hk
        have hd : disable_overlay k' ((k', true) :: rest) =
            (k', false) :: disable_overlay k' rest := by
          simp [disable_overlay]
        rw [hd, loadOverlays_cons_skip,
          loadOverlays_cons_miss (by simp [h]) rest]
        exact map_fst_decorate.trans ih
      · have hbeq : (k' == k) = false := by simp [hk]
        have hd : disable_overlay k ((k', true) :: rest) =
            (k', true) :: disable_overlay k rest := by
          simp [disable_overlay, hbeq, hk]
        rw [hd]
        by_cases hex : (jlookup fs (overlayPath k')).isSome = true
        · rw [loadOverlays_cons_present hex rest,
            loadOverlays_cons_present hex (disable_overlay k rest)]
          cases hl : load_questions_from_file fs (overlayPath k') with
          | error e => simp [Bind.bind, Except.bind, Except.map]
          | ok qs =>
            simp only [Bind.bind, Except.bind]
            exact map_fst_loaded ih
        · rw [loadOverlays_cons_miss (by simpa using hex) rest,
            loadOverlays_cons_miss (by simpa using hex) (disable_overlay k rest)]
          exact map_fst_decorate.trans (ih.trans map_fst_decorate.symm)



lemma loadOverlays_missing_trace {fs : FS} {k : String}
    (h : jlookup fs (overlayPath k) = none) :
    ∀ flags qs d, (k, true) ∈ flags → loadOverlays fs flags = .ok (qs, d) →
      ("Missing overlay " ++ k) ∈ d := by
  intro flags
  induction flags with
  | nil => intro qs d hmem _; cases hmem
  | cons p rest ih =>
    intro qs d hmem hload
    obtain ⟨k', en⟩ := p
    rcases List.mem_cons.mp hmem with heq | hmem'
    · injection heq with h1 h2
      subst h1
      cases h2
      rw [loadOverlays_cons_miss (by simp [h]) rest] at hload
      obtain ⟨⟨a, b⟩, hrest, hpure⟩ := bind_ok.mp hload
      simp [pure, Except.pure] at hpure
      rw [← hpure.2]
      exact List.mem_cons_self _ _
    · cases en with
      | false =>
        rw [loadOverlays_cons_skip] at hload
        exact ih qs d hmem' hload
      | true =>
        by_cases hex : (jlookup fs (overlayPath k')).isSome = true
        · rw [loadOverlays_cons_present hex rest] at hload
          obtain ⟨qs1, hl, hload'⟩ := bind_ok.mp hload
          obtain ⟨⟨a, b⟩, hrest, hpure⟩ := bind_ok.mp hload'
          simp [pure, Except.pure] at hpure
          rw [← hpure.2]
          exact List.mem_cons_of_mem _ (ih a b hmem' hrest)
        · rw [loadOverlays_cons_miss (by simpa using hex) rest] at hload
          obtain ⟨⟨a, b⟩, hrest, hpure⟩ := bind_ok.mp hload
          simp [pure, Except.pure] at hpure
          rw [← hpure.2]
          exact List.mem_cons_of_mem _ (ih a b hmem' hrest)

/-- C6: missing optional bank files are non-fatal.  A missing sector file
makes the build identical to one with an empty sector contribution; a
missing file for an enabled overlay contributes no questions (the build
equals the build with that overlay disabled, question-wise) and is recorded
as a "Missing overlay" trace line. -/
theorem missing_optional_files_nonfatal (fs : FS) (size sector : String)
    (flags : List (String × Bool)) :
    (jlookup fs (sectorPath sector) = none →
       build_question_set fs size sector flags =
         build_question_set_empty_sector fs size sector flags) ∧
    (∀ k, jlookup fs (overlayPath k) = none →
       (loadOverlays fs flags).map Prod.fst =
         (loadOverlays fs (disable_overlay k flags)).map Prod.fst) ∧
    (∀ k, jlookup fs (overlayPath k) = none → (k, true) ∈ flags →
       ∀ final dbg, build_question_set fs size sector flags = .ok (final, dbg) →
         ("Missing overlay " ++ k) ∈ dbg) := by
  refine ⟨?_, fun k hk => loadOverlays_disable hk flags, ?_⟩
  · intro h
    have hsec : load_sector fs sector = pure ([] : List JValue) := by
      unfold load_sector
      rw [h]
      rfl
    unfold build_question_set build_question_set_empty_sector
    cases hcore : load_questions_from_file fs corePath with
    | error e => rfl
    | ok core =>
      simp only [Bind.bind, Except.bind]
      cases hsize : load_questions_from_file fs (sizePath size) with
      | error e => rfl
      | ok size_q =>
        rw [hsec]
        rfl
  · intro k hk hmem final dbg hb
    obtain ⟨core, size_q, sector_q, ovq, ovdbg, merged, _, _, _, h4, _, _, hdbg, _⟩ :=
      build_ok_elim hb
    have : ("Missing overlay " ++ k) ∈ ovdbg :=
      loadOverlays_missing_trace hk flags ovq ovdbg hmem h4
    rw [hdbg]
    simp [this]



/-- C6 witness: the sample bank has no `sector_other_generic.json` and no
PCI overlay file; the build equals the empty-sector build, overlay
questions match the disabled-overlay run, and the trace records the miss. -/
theorem missing_optional_files_nonfatal_witness :
    (build_question_set fsSample "small" "other_generic" flagsPci =
       build_question_set_empty_sector fsSample "small" "other_generic" flagsPci) ∧
    ((loadOverlays fsSample flagsPci).map Prod.fst =
       (loadOverlays fsSample
          (disable_overlay "payment_card_industry_data_security_standard" flagsPci)).map
         Prod.fst) ∧
    ("Missing overlay payment_card_industry_data_security_standard" ∈
       ["Loaded core.json: 1", "Loaded size_small.json: 2",
        "Loaded sector_other_generic.json: 0",
        "Missing overlay payment_card_industry_data_security_standard",
        "Final question count: 1"]) :=
  ⟨(missing_optional_files_nonfatal fsSample "small" "other_generic" flagsPci).1 rfl,
   (missing_optional_files_nonfatal fsSample "small" "other_generic" flagsPci).2.1
     "payment_card_industry_data_security_standard" rfl,
   (missing_optional_files_nonfatal fsSample "small" "other_generic" flagsPci).2.2
     "payment_card_industry_data_security_standard" rfl
     (List.mem_cons_self _ _) [qA] _ rfl⟩

lemma strsOf_eq {xs : List JValue} {ys : List String} (h : strsOf xs = some ys) :
    xs = ys.map JValue.str := by
  induction xs generalizing ys with
  | nil =>
    simp [strsOf] at h
    subst h
    rfl
  | cons a rest ih =>
    cases a with
    | str s =>
      simp only [strsOf] at h
      cases hz : strsOf rest with
      | none => rw [hz] at h; cases h
      | some zs =>
        rw [hz] at h
        simp [Option.map] at h
        subst h
        simp [ih hz]
    | num n => simp [strsOf] at h
    | bool b => simp [strsOf] at h
    | list l => simp [strsOf] at h
    | obj o => simp [strsOf] at h

lemma pyContains_strList {xs : List String} {x : String} :
    pyContains (.list (xs.map JValue.str)) x = true ↔ x ∈ xs := by
  induction xs with
  | nil => simp [pyContains]
  | cons a rest ih =>
    constructor
    · intro hh
      simp only [List.map_cons, pyContains, List.any_cons, Bool.or_eq_true] at hh
      rcases hh with h1 | h2
      · simp at h1
        rw [h1]
        exact List.mem_cons_self _ _
      · exact List.mem_cons_of_mem _ (ih.mp h2)
    · intro hx
      rcases List.mem_cons.mp hx with rfl | hx'
      · simp [pyContains]
      · simp only [List.map_cons, pyContains, List.any_cons, Bool.or_eq_true]
        exact Or.inr (ih.mpr hx')


lemma all_flag_get {xs : List String} {flags : List (String × Bool)} :
    ((xs.map JValue.str).all (flag_get flags) = true) ↔
      ∀ o ∈ xs, flag_get flags (.str o) = true := by
  induction xs with
  | nil => simp
  | cons a rest ih => simp [List.all_cons, ih]

lemma asObjFields_eq_some {x : JValue} {fs : List (String × JValue)}
    (h : asObjFields x = some fs) : x = .obj fs := by
  cases x <;> simp [asObjFields] at h
  rw [h]

lemma asListItems_eq_some {o : Option JValue} {xs : List JValue}
    (h : asListItems o = some xs) : o = some (.list xs) := by
  match o with
  | none => simp [asListItems] at h
  | some (.list ys) =>
    simp [asListItems] at h
    rw [h]
  | some (.str s) => simp [asListItems] at h
  | some (.num n) => simp [asListItems] at h
  | some (.bool b) => simp [asListItems] at h
  | some (.obj fs2) => simp [asListItems] at h

lemma question_visible_iff {size sector : String} {flags : List (String × Bool)}
    {q : JValue} {szs secs ovs : List String}
    (h : visLists q = some (szs, secs, ovs)) :
    question_visible size sector flags q = true ↔
      (size ∈ szs ∧ (sector ∈ secs ∨ "all" ∈ secs) ∧
        ∀ o ∈ ovs, flag_get flags (.str o) = true) := by
  simp only [visLists, Bind.bind, Option.bind_eq_some, pure, Option.some.injEq] at h
  obtain ⟨fields, hf, vv, hvv, v, hv, szl, hszl, sel, hsel, ovl, hovl,
    a, ha, b, hb, c, hc, hpure⟩ := h
  obtain ⟨rfl, rfl, rfl⟩ : a = szs ∧ b = secs ∧ c = ovs := by
    injection hpure with h1 h2
    injection h2 with h2 h3
    exact ⟨h1, h2, h3⟩
  have hq := asObjFields_eq_some hf
  have hvv2 := asObjFields_eq_some hv
  subst hq
  subst hvv2
  have h1 := asListItems_eq_some hszl
  have h2 := asListItems_eq_some hsel
  have h3 := asListItems_eq_some hovl
  rw [strsOf_eq ha] at h1
  rw [strsOf_eq hb] at h2
  rw [strsOf_eq hc] at h3
  simp only [question_visible, vfield, hvv, h1, h2, h3, Option.getD_some, pyElems,
    Bool.and_eq_true, Bool.or_eq_true, pyContains_strList, all_flag_get]
  tauto



/-- C1: a merged question enters the final sequence returned by
`build_question_set` iff the active size is in `visibility_rules.sizes`,
the active sector is in `visibility_rules.sectors` or that set contains the
wildcard "all", and every overlay tag in `visibility_rules.overlays` is
enabled in the overlay-flags mapping (a missing tag counts as disabled; an
empty overlay set is vacuously satisfied). -/
theorem build_question_set_mem_final_iff
    (fs : FS) (size sector : String) (flags : List (String × Bool))
    (final : List JValue) (dbg : List String) (merged : List JValue)
    (q : JValue) (szs secs ovs : List String)
    (hb : build_question_set fs size sector flags = .ok (final, dbg))
    (hm : merged_questions fs size sector flags = .ok merged)
    (hq : q ∈ merged)
    (hshape : visLists q = some (szs, secs, ovs)) :
    q ∈ final ↔
      (size ∈ szs ∧ (sector ∈ secs ∨ "all" ∈ secs) ∧
        ∀ o ∈ ovs, flag_get flags (.str o) = true) := by
  obtain ⟨core, size_q, sector_q, ovq, ovdbg, merged', _, _, _, _, _, hfin, _, hm'⟩ :=
    build_ok_elim hb
  rw [hm'] at hm
  injection hm with hm
  subst hm
  rw [hfin, List.mem_filter]
  constructor
  · rintro ⟨_, hvis⟩
    exact (question_visible_iff hshape).mp hvis
  · intro hcond
    exact ⟨hq, (question_visible_iff hshape).mpr hcond⟩

/-- C1 witness: the GDPR-gated sample question `qC` is in the final set for
size small, sector other_generic, GDPR enabled — and the three conditions
hold for it. -/
theorem build_question_set_mem_final_iff_witness :
    qC ∈ [qA, qC] ↔
      ("small" ∈ ["small"] ∧ ("other_generic" ∈ ["all"] ∨ "all" ∈ ["all"]) ∧
        ∀ o ∈ ["general_data_protection_regulation"],
          flag_get flagsSample (.str o) = true) :=
  build_question_set_mem_final_iff fsSample "small" "other_generic" flagsSample
    [qA, qC]
    ["Loaded core.json: 1", "Loaded size_small.json: 2",
     "Loaded sector_other_generic.json: 0",
     "Loaded overlay general_data_protection_regulation", "Final question count: 2"]
    [qA, qB, qC] qC ["small"] ["all"] ["general_data_protection_regulation"]
    rfl rfl (by simp) rfl

/-- C7: no two questions in the output of `merge_unique_by_id` have ids that
compare equal, and the same holds for the final filtered sequence of
`build_question_set`. -/
theorem merged_ids_unique (lists : List (List JValue)) (out : List JValue)
    (fs : FS) (size sector : String) (flags : List (String × Bool))
    (final : List JValue) (dbg : List String) :
    (merge_unique_by_id lists = .ok out →
       out.Pairwise (fun a b => qkey a ≠ qkey b)) ∧
    (build_question_set fs size sector flags = .ok (final, dbg) →
       final.Pairwise (fun a b => qkey a ≠ qkey b)) := by
  constructor
  · intro h
    exact (merge_aux_keys h).2
  · intro hb
    obtain ⟨core, size_q, sector_q, ovq, ovdbg, merged, _, _, _, _, hmg, hfin, _, _⟩ :=
      build_ok_elim hb
    have hp := (merge_aux_keys hmg).2
    rw [hfin]
    exact hp.sublist (List.filter_sublist _)

/-- C7 witness: merging the sample core and size banks (which share id
`qa`) yields pairwise-distinct ids. -/
theorem merged_ids_unique_witness :
    ([qA, qB] : List JValue).Pairwise (fun a b => qkey a ≠ qkey b) :=
  (merged_ids_unique [[qA], [qA2, qB]] [qA, qB] fsSample "small" "other_generic"
    flagsSample [] []).1 rfl

/-- C2: the merge walks core, size, sector, concatenated-enabled-overlays in
that fixed order; the output keeps only the first occurrence of each id and
preserves first-occurrence order (a sublist of the concatenation, no
re-sorting); an id already seen is dropped silently, never an error; and a
version of an id present in the core bank wins over any later bank's
version. -/
theorem merge_precedence_first_occurrence
    (fs : FS) (size sector : String) (flags : List (String × Bool))
    (final : List JValue) (dbg : List String)
    (lists : List (List JValue)) (out : List JValue)
    (core size_q sector_q ovq : List JValue) (k : HKey) (qc : JValue) :
    (merge_unique_by_id lists = .ok out → out.Sublist lists.flatten) ∧
    (merge_unique_by_id lists = .ok out → ∀ p,
       (p ∈ out ↔ ∃ kk, qkey p = some kk ∧
         ∃ l₁ l₂, lists.flatten = l₁ ++ p :: l₂ ∧ ∀ r ∈ l₁, qkey r ≠ some kk)) ∧
    ((∀ p ∈ lists.flatten, (qkey p).isSome = true) →
       ∃ o, merge_unique_by_id lists = .ok o) ∧
    (merge_unique_by_id [core, size_q, sector_q, ovq] = .ok out →
       qc ∈ core → qkey qc = some k →
       ∀ p ∈ out, qkey p = some k → p ∈ core) ∧
    (build_question_set fs size sector flags = .ok (final, dbg) →
       ∃ core2 size2 sector2 ov2 merged,
         load_questions_from_file fs corePath = .ok core2 ∧
         load_questions_from_file fs (sizePath size) = .ok size2 ∧
         load_sector fs sector = .ok sector2 ∧
         (loadOverlays fs flags).map Prod.fst = .ok ov2 ∧
         merge_unique_by_id [core2, size2, sector2, ov2] = .ok merged ∧
         final = merged.filter (question_visible size sector flags)) := by
  refine ⟨?_, ?_, ?_, ?_, ?_⟩
  · intro h
    exact merge_aux_sublist h
  · intro h p
    rw [merge_aux_mem h]
    constructor
    · rintro ⟨kk, hkk, _, l₁, l₂, heq, hfirst⟩
      exact ⟨kk, hkk, l₁, l₂, heq, hfirst⟩
    · rintro ⟨kk, hkk, l₁, l₂, heq, hfirst⟩
      exact ⟨kk, hkk, List.not_mem_nil kk, l₁, l₂, heq, hfirst⟩
  · intro hall
    exact merge_aux_isOk.mpr hall
  · intro h hqc hk
    have h' : merge_aux [] (core ++ (size_q ++ (sector_q ++ (ovq ++ [])))) = .ok out := by
      simpa [merge_unique_by_id, List.flatten] using h
    exact merge_aux_append_key core h' hqc hk (List.not_mem_nil k)
  · intro hb
    obtain ⟨core2, size2, sector2, ov2, ovdbg2, merged, h1, h2, h3, h4, h5, h6, _, _⟩ :=
      build_ok_elim hb
    exact ⟨core2, size2, sector2, ov2, merged, h1, h2, h3, by rw [h4]; rfl, h5, h6⟩

/-- C2 witness: id `qa` appears in both the sample core and size banks; the
merged output keeps the core version. -/
theorem merge_precedence_first_occurrence_witness :
    qA ∈ ([qA] : List JValue) ∧ qA2 ∉ ([qA, qB, qC] : List JValue) :=
  ⟨(merge_precedence_first_occurrence fsSample "small" "other_generic" flagsSample
      [] [] [] [qA, qB, qC] [qA] [qA2, qB] [] [qC] (.str "qa") qA).2.2.2.1
      rfl (List.mem_cons_self _ _) rfl qA (List.mem_cons_self _ _) rfl,
   by simp [qA2, qA, qB, qC, mkQ]⟩

lemma status_good_iff (a : Rat) : status_from_avg a = "🟩 Good" ↔ (1.6 : Rat) ≤ a := by
  unfold status_from_avg
  split_ifs with h1 h2
  · exact iff_of_true rfl h1
  · exact iff_of_false (by decide) h1
  · exact iff_of_false (by decide) h1

lemma status_mid_iff (a : Rat) :
    status_from_avg a = "🟨 Needs improvement" ↔ (0.8 : Rat) ≤ a ∧ a < 1.6 := by
  unfold status_from_avg
  split_ifs with h1 h2
  · exact iff_of_false (by decide) (fun hc => absurd h1 (not_le.mpr hc.2))
  · exact iff_of_true rfl ⟨h2, not_le.mp h1⟩
  · exact iff_of_false (by decide) (fun hc => h2 hc.1)

lemma status_risk_iff (a : Rat) : status_from_avg a = "🟥 At risk" ↔ a < (0.8 : Rat) := by
  unfold status_from_avg
  split_ifs with h1 h2
  · exact iff_of_false (by decide) (not_lt.mpr (le_trans (by norm_num) h1))
  · exact iff_of_false (by decide) (not_lt.mpr h2)
  · exact iff_of_true rfl (not_le.mp h2)



lemma answers_get_not_mem {answers : Answers} {i : String}
    (h : ∀ p ∈ answers, p.1 ≠ i) : answers_get answers i = "Partially or unsure" := by
  induction answers with
  | nil => rfl
  | cons p rest ih =>
    obtain ⟨k, a⟩ := p
    simp only [answers_get]
    rw [if_neg (by simpa using h (k, a) (List.mem_cons_self _ _))]
    exact ih fun p hp => h p (List.mem_cons_of_mem _ hp)

lemma addScore_sumLens (s : String) (n : Nat) :
    ∀ acc, sumLens (addScore s n acc) = sumLens acc + 1 := by
  intro acc
  induction acc with
  | nil => simp [addScore, sumLens]
  | cons p rest ih =>
    obtain ⟨t, vals⟩ := p
    by_cases ht : (t == s) = true
    · simp [addScore, ht, sumLens]
      omega
    · simp only [addScore, ht, if_false, Bool.false_eq_true]
      simp only [sumLens, List.map_cons, List.sum_cons] at ih ⊢
      omega

lemma section_scores_total {answers : Answers} :
    ∀ qs acc groups, section_scores answers qs acc = some groups →
      sumLens groups = sumLens acc + qs.length := by
  intro qs
  induction qs with
  | nil =>
    intro acc groups h
    simp [section_scores] at h
    subst h
    simp
  | cons p rest ih =>
    intro acc groups h
    simp only [section_scores, Bind.bind] at h
    cases han : answer_for answers p with
    | none => rw [han, Option.none_bind] at h; cases h
    | some ansp =>
      rw [han, Option.some_bind] at h
      cases hs : qsection p with
      | none => rw [hs, Option.none_bind] at h; cases h
      | some s =>
        rw [hs, Option.some_bind] at h
        cases hc : score_choice ansp with
        | none => rw [hc, Option.none_bind] at h; cases h
        | some sc =>
          rw [hc, Option.some_bind] at h
          have := ih (addScore s sc acc) groups h
          rw [this, addScore_sumLens]
          simp [List.length_cons]
          omega



lemma quick_wins_mem {answers : Answers} :
    ∀ qs l, quick_wins answers qs = some l →
      ∀ q ans, answer_for answers q = some ans →
        ((q, ans) ∈ l ↔ (q ∈ qs ∧ ans ≠ "Yes" ∧
          ∃ e, wnum q "effort" = some e ∧ e ≤ 2 ∧
          ∃ im, wnum q "impact" = some im ∧ 2 ≤ im)) := by
  intro qs
  induction qs with
  | nil =>
    intro l h q ans hans
    simp [quick_wins] at h
    subst h
    simp
  | cons p rest ih =>
    intro l h q ans hans
    simp only [quick_wins, Bind.bind] at h
    cases han : answer_for answers p with
    | none => rw [han, Option.none_bind] at h; cases h
    | some ansp =>
      rw [han, Option.some_bind] at h
      by_cases hyes : ansp = "Yes"
      · rw [if_neg (by simp [hyes])] at h
        rw [ih l h q ans hans]
        constructor
        · rintro ⟨hq, hc⟩
          exact ⟨List.mem_cons_of_mem _ hq, hc⟩
        · rintro ⟨hq, hc⟩
          rcases List.mem_cons.mp hq with rfl | hq'
          · rw [han] at hans
            injection hans with hans
            exact absurd (hans.symm.trans hyes) hc.1
          · exact ⟨hq', hc⟩
      · rw [if_pos hyes] at h
        cases he : wnum p "effort" with
        | none => rw [he, Option.none_bind] at h; cases h
        | some e =>
          rw [he, Option.some_bind] at h
          by_cases hele : e ≤ 2
          · rw [if_pos hele] at h
            cases him : wnum p "impact" with
            | none => rw [him, Option.none_bind] at h; cases h
            | some im =>
              rw [him, Option.some_bind] at h
              by_cases hgeim : 2 ≤ im
              · rw [if_pos hgeim] at h
                cases ht : quick_wins answers rest with
                | none => rw [ht, Option.none_bind] at h; cases h
                | some tail =>
                  rw [ht, Option.some_bind] at h
                  injection h with h
                  subst h
                  rw [List.mem_cons]
                  constructor
                  · rintro (hpair | htail)
                    · injection hpair with hq1 hq2
                      subst hq1
                      subst hq2
                      exact ⟨List.mem_cons_self _ _, hyes,
                        e, he, hele, im, him, hgeim⟩
                    · obtain ⟨hq, hc⟩ := (ih tail ht q ans hans).mp htail
                      exact ⟨List.mem_cons_of_mem _ hq, hc⟩
                  · rintro ⟨hq, hc⟩
                    rcases List.mem_cons.mp hq with rfl | hq'
                    · rw [han] at hans
                      injection hans with hans
                      subst hans
                      exact Or.inl rfl
                    · exact Or.inr ((ih tail ht q ans hans).mpr ⟨hq', hc⟩)
              · rw [if_neg hgeim] at h
                rw [ih l h q ans hans]
                constructor
                · rintro ⟨hq, hc⟩
                  exact ⟨List.mem_cons_of_mem _ hq, hc⟩
                · rintro ⟨hq, hc⟩
                  rcases List.mem_cons.mp hq with rfl | hq'
                  · obtain ⟨_, e', he', _, im', him', hgeim'⟩ := hc
                    rw [him] at him'
                    injection him' with him'
                    subst him'
                    exact absurd hgeim' hgeim
                  · exact ⟨hq', hc⟩
          · rw [if_neg hele] at h
            rw [ih l h q ans hans]
            constructor
            · rintro ⟨hq, hc⟩
              exact ⟨List.mem_cons_of_mem _ hq, hc⟩
            · rintro ⟨hq, hc⟩
              rcases List.mem_cons.mp hq with rfl | hq'
              · obtain ⟨_, e', he', hele', _⟩ := hc
                rw [he] at he'
                injection he' with he'
                subst he'
                exact absurd hele' hele
              · exact ⟨hq', hc⟩



/-- C5: answers score Yes=2, "Partially or unsure"=1, No=0; the overall
score is the unweighted mean of the per-section averages (sections count
equally regardless of question count, not the mean of raw answers); the
status bands are ≥1.6 Good, ≥0.8 Needs improvement, else At risk; two
sections with averages 2.0 and 0.0 (1 and 3 questions) give overall 1.0 and
status "Needs improvement", while the raw mean would be 0.5. -/
theorem results_scoring_and_bands (a : Rat) (answers : Answers) (qs : List JValue)
    (groups : List (String × List Nat)) :
    (score_choice "Yes" = some 2 ∧ score_choice "Partially or unsure" = some 1 ∧
       score_choice "No" = some 0) ∧
    ((status_from_avg a = "🟩 Good" ↔ (1.6 : Rat) ≤ a) ∧
     (status_from_avg a = "🟨 Needs improvement" ↔ (0.8 : Rat) ≤ a ∧ a < 1.6) ∧
     (status_from_avg a = "🟥 At risk" ↔ a < (0.8 : Rat))) ∧
    (section_scores answers qs [] = some groups →
       results_overall answers qs =
         some (if (section_avg groups).isEmpty then 0
               else ((section_avg groups).map Prod.snd).sum /
                 ((section_avg groups).length : Rat))) ∧
    (results_overall answers5 qs5 = some 1 ∧
       status_from_avg 1 = "🟨 Needs improvement" ∧
       (1 : Rat) ≠ (2 + 0 + 0 + 0) / 4) := by
  refine ⟨⟨rfl, rfl, rfl⟩,
    ⟨status_good_iff a, status_mid_iff a, status_risk_iff a⟩, ?_, ?_, ?_, ?_⟩
  · intro hg
    simp only [results_overall, Bind.bind, hg, Option.some_bind, overall_of]
    rfl
  · have hg : section_scores answers5 qs5 [] = some [("A", [2]), ("B", [0, 0, 0])] := rfl
    simp only [results_overall, Bind.bind, hg, Option.some_bind]
    norm_num [overall_of, section_avg]
  · rw [status_mid_iff]
    norm_num
  · norm_num

/-- C5 witness: the aggregation formula instantiated on the two-section
example. -/
theorem results_scoring_and_bands_witness :
    results_overall answers5 qs5 =
      some (if (section_avg [("A", [2]), ("B", [0, 0, 0])]).isEmpty then 0
            else ((section_avg [("A", [2]), ("B", [0, 0, 0])]).map Prod.snd).sum /
              ((section_avg [("A", [2]), ("B", [0, 0, 0])]).length : Rat)) :=
  (results_scoring_and_bands 1 answers5 qs5 [("A", [2]), ("B", [0, 0, 0])]).2.2.1 rfl

/-- C8: a question with a current answer is in the quick-wins list iff its
answer is not "Yes", its effort weight is at most 2 and its impact weight is
at least 2 (weights defaulting to 2 when absent, as the code does). -/
theorem quick_wins_membership (answers : Answers) (qs : List JValue)
    (l : List (JValue × String)) (q : JValue) (ans : String)
    (h : quick_wins answers qs = some l) (hans : answer_for answers q = some ans) :
    (q, ans) ∈ l ↔ (q ∈ qs ∧ ans ≠ "Yes" ∧
      ∃ e, wnum q "effort" = some e ∧ e ≤ 2 ∧
      ∃ im, wnum q "impact" = some im ∧ 2 ≤ im) :=
  quick_wins_mem qs l h q ans hans

/-- C8 witness: `qA` (effort 1, impact 3) answered "No" is in the quick-wins
list; `qB` (effort 3, impact 3) answered "No" is not. -/
theorem quick_wins_membership_witness :
    ((qA, "No") ∈ [((qA : JValue), "No")] ↔ (qA ∈ [qA, qB] ∧ "No" ≠ "Yes" ∧
       ∃ e, wnum qA "effort" = some e ∧ e ≤ 2 ∧
       ∃ im, wnum qA "impact" = some im ∧ 2 ≤ im)) ∧
    ((qB, "No") ∈ [((qA : JValue), "No")] ↔ (qB ∈ [qA, qB] ∧ "No" ≠ "Yes" ∧
       ∃ e, wnum qB "effort" = some e ∧ e ≤ 2 ∧
       ∃ im, wnum qB "impact" = some im ∧ 2 ≤ im)) :=
  ⟨quick_wins_membership answers8 [qA, qB] [(qA, "No")] qA "No" rfl rfl,
   quick_wins_membership answers8 [qA, qB] [(qA, "No")] qB "No" rfl rfl⟩

/-- C10: a built question with no recorded answer is treated as answered
"Partially or unsure" (score 1): it contributes a score to its section like
every other question, and it is eligible for quick wins exactly under the
effort/impact conditions (the answer condition holds since "Partially or
unsure" is not "Yes"). -/
theorem unanswered_defaults_to_score_one (answers : Answers) (qs : List JValue)
    (q : JValue) (fields : List (String × JValue)) (i : String)
    (groups : List (String × List Nat)) (l : List (JValue × String))
    (hq : q = .obj fields) (hid : jlookup fields "id" = some (.str i))
    (hno : ∀ p ∈ answers, p.1 ≠ i) :
    answer_for answers q = some "Partially or unsure" ∧
    score_choice "Partially or unsure" = some 1 ∧
    (section_scores answers qs [] = some groups → sumLens groups = qs.length) ∧
    (quick_wins answers qs = some l →
       (((q, "Partially or unsure") ∈ l) ↔ (q ∈ qs ∧
         ∃ e, wnum q "effort" = some e ∧ e ≤ 2 ∧
         ∃ im, wnum q "impact" = some im ∧ 2 ≤ im))) := by
  have hansq : answer_for answers q = some "Partially or unsure" := by
    subst hq
    simp only [answer_for, hid, pyHashKey]
    rw [answers_get_not_mem hno]
  refine ⟨hansq, rfl, ?_, ?_⟩
  · intro hg
    have := section_scores_total qs [] groups hg
    simpa [sumLens] using this
  · intro hqw
    rw [quick_wins_mem qs l hqw q "Partially or unsure" hansq]
    constructor
    · rintro ⟨hq', _, hc⟩
      exact ⟨hq', hc⟩
    · rintro ⟨hq', hc⟩
      exact ⟨hq', by decide, hc⟩



/-- C10 witness: with an empty answers map, `qA` is scored as "Partially or
unsure", contributes its score, and is quick-wins-eligible. -/
theorem unanswered_defaults_to_score_one_witness :
    answer_for [] qA = some "Partially or unsure" ∧
    score_choice "Partially or unsure" = some 1 ∧
    (section_scores [] [qA] [] = some [("Access Control", [1])] →
       sumLens [("Access Control", [1])] = [qA].length) ∧
    (quick_wins [] [qA] = some [(qA, "Partially or unsure")] →
       (((qA, "Partially or unsure") ∈ [((qA : JValue), "Partially or unsure")]) ↔
         (qA ∈ [qA] ∧
           ∃ e, wnum qA "effort" = some e ∧ e ≤ 2 ∧
           ∃ im, wnum qA "impact" = some im ∧ 2 ≤ im))) :=
  unanswered_defaults_to_score_one [] [qA] qA qAFields "qa"
    [("Access Control", [1])] [(qA, "Partially or unsure")] rfl rfl (by simp)

end SME

